import Mathlib

/-!
Shallow embedding of the Citra touch-input coordinate mapper and the
free-camera debug-hack controller (src/core/frontend/emu_window.cpp),
together with the column-major 4x4 matrix library that backs the camera
controller (src/common/string_util.cpp).

Modelling conventions:
* C `double`/`float` values are modelled as exact rationals.
* C `unsigned` pixel coordinates are modelled as natural numbers; unsigned
  subtractions that cannot underflow on the paths exercised by the theorems
  are modelled by truncated `Nat` subtraction.
* Out-parameters written only on success are modelled with `Option`.
* The global `Settings::values.render_3d` is passed as an explicit
  `StereoRenderOption` argument, and the lazily-created button devices of
  `UpdateCameraHack` as an explicit record of booleans.
* `sin`, `cos` and `sqrt` (used only by `mat4_rotate` and by the camera-up
  normalization) are passed as abstract function parameters so that every
  definition stays executable; no theorem below depends on their values.
-/

namespace Citra

/-- Column-major 4x4 matrix of doubles, modelled over the rationals.
Field `mN` is the C array element `mat[N]`. -/
@[ext]
structure Mat4 where
  m0 : ℚ
  m1 : ℚ
  m2 : ℚ
  m3 : ℚ
  m4 : ℚ
  m5 : ℚ
  m6 : ℚ
  m7 : ℚ
  m8 : ℚ
  m9 : ℚ
  m10 : ℚ
  m11 : ℚ
  m12 : ℚ
  m13 : ℚ
  m14 : ℚ
  m15 : ℚ
deriving DecidableEq

/-- Cached 2x2 sub-determinant `b00 = a00 * a11 - a01 * a10` of `mat4_inverse`. -/
def b00 (m : Mat4) : ℚ := m.m0 * m.m5 - m.m1 * m.m4

/-- Cached 2x2 sub-determinant `b01 = a00 * a12 - a02 * a10` of `mat4_inverse`. -/
def b01 (m : Mat4) : ℚ := m.m0 * m.m6 - m.m2 * m.m4

/-- Cached 2x2 sub-determinant `b02 = a00 * a13 - a03 * a10` of `mat4_inverse`. -/
def b02 (m : Mat4) : ℚ := m.m0 * m.m7 - m.m3 * m.m4

/-- Cached 2x2 sub-determinant `b03 = a01 * a12 - a02 * a11` of `mat4_inverse`. -/
def b03 (m : Mat4) : ℚ := m.m1 * m.m6 - m.m2 * m.m5

/-- Cached 2x2 sub-determinant `b04 = a01 * a13 - a03 * a11` of `mat4_inverse`. -/
def b04 (m : Mat4) : ℚ := m.m1 * m.m7 - m.m3 * m.m5

/-- Cached 2x2 sub-determinant `b05 = a02 * a13 - a03 * a12` of `mat4_inverse`. -/
def b05 (m : Mat4) : ℚ := m.m2 * m.m7 - m.m3 * m.m6

/-- Cached 2x2 sub-determinant `b06 = a20 * a31 - a21 * a30` of `mat4_inverse`. -/
def b06 (m : Mat4) : ℚ := m.m8 * m.m13 - m.m9 * m.m12

/-- Cached 2x2 sub-determinant `b07 = a20 * a32 - a22 * a30` of `mat4_inverse`. -/
def b07 (m : Mat4) : ℚ := m.m8 * m.m14 - m.m10 * m.m12

/-- Cached 2x2 sub-determinant `b08 = a20 * a33 - a23 * a30` of `mat4_inverse`. -/
def b08 (m : Mat4) : ℚ := m.m8 * m.m15 - m.m11 * m.m12

/-- Cached 2x2 sub-determinant `b09 = a21 * a32 - a22 * a31` of `mat4_inverse`. -/
def b09 (m : Mat4) : ℚ := m.m9 * m.m14 - m.m10 * m.m13

/-- Cached 2x2 sub-determinant `b10 = a21 * a33 - a23 * a31` of `mat4_inverse`. -/
def b10 (m : Mat4) : ℚ := m.m9 * m.m15 - m.m11 * m.m13

/-- Cached 2x2 sub-determinant `b11 = a22 * a33 - a23 * a32` of `mat4_inverse`. -/
def b11 (m : Mat4) : ℚ := m.m10 * m.m15 - m.m11 * m.m14

/-- The determinant `d` computed by `mat4_inverse`. -/
def det4 (m : Mat4) : ℚ :=
  b00 m * b11 m - b01 m * b10 m + b02 m * b09 m + b03 m * b08 m - b04 m * b07 m +
    b05 m * b06 m

/-- The reciprocal determinant `invDet = 1 / d` of `mat4_inverse`. -/
def invDet4 (m : Mat4) : ℚ := 1 / det4 m

/-- `mat4_inverse` (string_util.cpp): cofactor-expansion 4x4 inverse.  Returns
`none` (the C `NULL` sentinel, with `dest` left unwritten) exactly when the
determinant is zero. -/
def mat4_inverse (m : Mat4) : Option Mat4 :=
  if det4 m = 0 then none
  else
    some
      { m0 := (m.m5 * b11 m - m.m6 * b10 m + m.m7 * b09 m) * invDet4 m
        m1 := (-m.m1 * b11 m + m.m2 * b10 m - m.m3 * b09 m) * invDet4 m
        m2 := (m.m13 * b05 m - m.m14 * b04 m + m.m15 * b03 m) * invDet4 m
        m3 := (-m.m9 * b05 m + m.m10 * b04 m - m.m11 * b03 m) * invDet4 m
        m4 := (-m.m4 * b11 m + m.m6 * b08 m - m.m7 * b07 m) * invDet4 m
        m5 := (m.m0 * b11 m - m.m2 * b08 m + m.m3 * b07 m) * invDet4 m
        m6 := (-m.m12 * b05 m + m.m14 * b02 m - m.m15 * b01 m) * invDet4 m
        m7 := (m.m8 * b05 m - m.m10 * b02 m + m.m11 * b01 m) * invDet4 m
        m8 := (m.m4 * b10 m - m.m5 * b08 m + m.m7 * b06 m) * invDet4 m
        m9 := (-m.m0 * b10 m + m.m1 * b08 m - m.m3 * b06 m) * invDet4 m
        m10 := (m.m12 * b04 m - m.m13 * b02 m + m.m15 * b00 m) * invDet4 m
        m11 := (-m.m8 * b04 m + m.m9 * b02 m - m.m11 * b00 m) * invDet4 m
        m12 := (-m.m4 * b09 m + m.m5 * b07 m - m.m6 * b06 m) * invDet4 m
        m13 := (m.m0 * b09 m - m.m1 * b07 m + m.m2 * b06 m) * invDet4 m
        m14 := (-m.m12 * b03 m + m.m13 * b01 m - m.m14 * b00 m) * invDet4 m
        m15 := (m.m8 * b03 m - m.m9 * b01 m + m.m10 * b00 m) * invDet4 m }

/-- `mat4_multiply` (string_util.cpp): `dest[4r+c] = sum_k mat2[4r+k] * mat[4k+c]`,
written out exactly as in the source (`a` caches `mat`, `b` caches `mat2`). -/
def mat4_multiply (mat mat2 : Mat4) : Mat4 where
  m0 := mat2.m0 * mat.m0 + mat2.m1 * mat.m4 + mat2.m2 * mat.m8 + mat2.m3 * mat.m12
  m1 := mat2.m0 * mat.m1 + mat2.m1 * mat.m5 + mat2.m2 * mat.m9 + mat2.m3 * mat.m13
  m2 := mat2.m0 * mat.m2 + mat2.m1 * mat.m6 + mat2.m2 * mat.m10 + mat2.m3 * mat.m14
  m3 := mat2.m0 * mat.m3 + mat2.m1 * mat.m7 + mat2.m2 * mat.m11 + mat2.m3 * mat.m15
  m4 := mat2.m4 * mat.m0 + mat2.m5 * mat.m4 + mat2.m6 * mat.m8 + mat2.m7 * mat.m12
  m5 := mat2.m4 * mat.m1 + mat2.m5 * mat.m5 + mat2.m6 * mat.m9 + mat2.m7 * mat.m13
  m6 := mat2.m4 * mat.m2 + mat2.m5 * mat.m6 + mat2.m6 * mat.m10 + mat2.m7 * mat.m14
  m7 := mat2.m4 * mat.m3 + mat2.m5 * mat.m7 + mat2.m6 * mat.m11 + mat2.m7 * mat.m15
  m8 := mat2.m8 * mat.m0 + mat2.m9 * mat.m4 + mat2.m10 * mat.m8 + mat2.m11 * mat.m12
  m9 := mat2.m8 * mat.m1 + mat2.m9 * mat.m5 + mat2.m10 * mat.m9 + mat2.m11 * mat.m13
  m10 := mat2.m8 * mat.m2 + mat2.m9 * mat.m6 + mat2.m10 * mat.m10 + mat2.m11 * mat.m14
  m11 := mat2.m8 * mat.m3 + mat2.m9 * mat.m7 + mat2.m10 * mat.m11 + mat2.m11 * mat.m15
  m12 := mat2.m12 * mat.m0 + mat2.m13 * mat.m4 + mat2.m14 * mat.m8 + mat2.m15 * mat.m12
  m13 := mat2.m12 * mat.m1 + mat2.m13 * mat.m5 + mat2.m14 * mat.m9 + mat2.m15 * mat.m13
  m14 := mat2.m12 * mat.m2 + mat2.m13 * mat.m6 + mat2.m14 * mat.m10 + mat2.m15 * mat.m14
  m15 := mat2.m12 * mat.m3 + mat2.m13 * mat.m7 + mat2.m14 * mat.m11 + mat2.m15 * mat.m15

/-- `mat4_identity` (string_util.cpp). -/
def mat4_identity : Mat4 :=
  ⟨1, 0, 0, 0, 0, 1, 0, 0, 0, 0, 1, 0, 0, 0, 0, 1⟩

/-- A 3-vector of doubles (`Common::Vec3` / a C `double[3]`). -/
@[ext]
structure Vec3 where
  x : ℚ
  y : ℚ
  z : ℚ
deriving DecidableEq

/-- `mat4_translate` (string_util.cpp), in the in-place form used by the camera
controller (`dest == mat`): only the translation row 12..15 changes. -/
def mat4_translate (m : Mat4) (v : Vec3) : Mat4 :=
  { m with
    m12 := m.m0 * v.x + m.m4 * v.y + m.m8 * v.z + m.m12
    m13 := m.m1 * v.x + m.m5 * v.y + m.m9 * v.z + m.m13
    m14 := m.m2 * v.x + m.m6 * v.y + m.m10 * v.z + m.m14
    m15 := m.m3 * v.x + m.m7 * v.y + m.m11 * v.z + m.m15 }

/-- `mat4_rotate` (string_util.cpp), in the in-place form used by the camera
controller.  `sine`, `cosine` and `sqrtQ` abstract the C `sin`, `cos` and
`sqrt`.  Returns `none` (the C `NULL` sentinel, matrix unchanged) when the
axis has zero length. -/
def mat4_rotate (sine cosine sqrtQ : ℚ → ℚ) (m : Mat4) (angle : ℚ) (v : Vec3) :
    Option Mat4 :=
  let len := sqrtQ (v.x * v.x + v.y * v.y + v.z * v.z)
  if len = 0 then none
  else
    let x := if len = 1 then v.x else v.x * (1 / len)
    let y := if len = 1 then v.y else v.y * (1 / len)
    let z := if len = 1 then v.z else v.z * (1 / len)
    let s := sine angle
    let c := cosine angle
    let t := 1 - c
    let r00 := x * x * t + c
    let r01 := y * x * t + z * s
    let r02 := z * x * t - y * s
    let r10 := x * y * t - z * s
    let r11 := y * y * t + c
    let r12 := z * y * t + x * s
    let r20 := x * z * t + y * s
    let r21 := y * z * t - x * s
    let r22 := z * z * t + c
    some
      { m with
        m0 := m.m0 * r00 + m.m4 * r01 + m.m8 * r02
        m1 := m.m1 * r00 + m.m5 * r01 + m.m9 * r02
        m2 := m.m2 * r00 + m.m6 * r01 + m.m10 * r02
        m3 := m.m3 * r00 + m.m7 * r01 + m.m11 * r02
        m4 := m.m0 * r10 + m.m4 * r11 + m.m8 * r12
        m5 := m.m1 * r10 + m.m5 * r11 + m.m9 * r12
        m6 := m.m2 * r10 + m.m6 * r11 + m.m10 * r12
        m7 := m.m3 * r10 + m.m7 * r11 + m.m11 * r12
        m8 := m.m0 * r20 + m.m4 * r21 + m.m8 * r22
        m9 := m.m1 * r20 + m.m5 * r21 + m.m9 * r22
        m10 := m.m2 * r20 + m.m6 * r21 + m.m10 * r22
        m11 := m.m3 * r20 + m.m7 * r21 + m.m11 * r22 }

/-- `Settings::StereoRenderOption`, restricted to the variants the touch code
branches on (all other variants take the same path as `Off`). -/
inductive StereoRenderOption
  | Off
  | SideBySide
  | CardboardVR
deriving DecidableEq

/-- A screen rectangle of `Layout::FramebufferLayout` (pixel bounds). -/
structure Rect where
  left : ℕ
  top : ℕ
  right : ℕ
  bottom : ℕ
deriving DecidableEq

/-- `ScreenRectangle::GetWidth`. -/
def Rect.GetWidth (r : Rect) : ℕ := r.right - r.left

/-- Modelled from the spec: the `cardboard` sub-record of the layout
(`user_x_shift`, `bottom_screen_right_eye`); its declaration is not under
src/.  Both fields are pixel quantities, modelled as naturals. -/
structure CardboardSettings where
  user_x_shift : ℕ
  bottom_screen_right_eye : ℕ
deriving DecidableEq

/-- Modelled from the spec: `Layout::FramebufferLayout` (declared outside
src/), restricted to the fields the mapper reads. -/
structure FramebufferLayout where
  top_screen : Rect
  bottom_screen : Rect
  width : ℕ
  is_rotated : Bool
  cardboard : CardboardSettings
deriving DecidableEq

/-- `EmuWindow::TouchState`: the lock-protected touch record.  The mutex is
immaterial to the sequential semantics modelled here. -/
structure TouchState where
  touch_pressed : Bool
  touch_x : ℚ
  touch_y : ℚ
deriving DecidableEq

/-- Modelled from the spec: the `camera_hack_state` record (grabbed flag plus
previous/current top-screen hit coordinates); its declaration is not under
src/. -/
structure CameraHackState where
  grabbed : Bool
  lastX : ℚ
  lastY : ℚ
  tx : ℚ
  ty : ℚ
deriving DecidableEq

/-- Modelled from the spec: the `fps_camera_controller` record (world matrix,
smoothed key velocity, smoothed mouse angular velocity); its declaration is
not under src/. -/
structure FpsCameraController where
  worldMatrix : Mat4
  keyMovement : Vec3
  mouseMovement : ℚ × ℚ
deriving DecidableEq

/-- The mutable state of an `EmuWindow` relevant to the claims. -/
structure EmuWindowState where
  touch : TouchState
  cam : CameraHackState
  fps : FpsCameraController
deriving DecidableEq

/-- Outcome of `EmuWindow::TouchPressed`.  The top-screen branch executes
`return;` inside a `bool` function, so its return value is unspecified; it is
modelled as a distinct outcome. -/
inductive TouchResult
  | grabbedTop
  | accepted
  | rejected
deriving DecidableEq

/-- `IsWithinTopScreen` (emu_window.cpp): on a hit, returns the pixel offsets
relative to the top-left corner of `top_screen` (the values written through
the `norm_x`/`norm_y` out-parameters); `none` means the out-parameters are
left untouched. -/
def IsWithinTopScreen (L : FramebufferLayout) (fbx fby : ℕ) : Option (ℚ × ℚ) :=
  if L.top_screen.left ≤ fbx ∧ fbx < L.top_screen.right ∧ L.top_screen.top ≤ fby ∧
      fby < L.top_screen.bottom then
    some (((fbx - L.top_screen.left : ℕ) : ℚ), ((fby - L.top_screen.top : ℕ) : ℚ))
  else none

/-- `IsWithinTouchscreen` (emu_window.cpp).  `Settings::values.render_3d` is
passed explicitly as `mode`. -/
def IsWithinTouchscreen (mode : StereoRenderOption) (L : FramebufferLayout)
    (fbx fby : ℕ) : Bool :=
  if mode = StereoRenderOption.SideBySide then
    decide (L.bottom_screen.top ≤ fby ∧ fby < L.bottom_screen.bottom) &&
      (decide (L.bottom_screen.left / 2 ≤ fbx ∧ fbx < L.bottom_screen.right / 2) ||
        decide (L.bottom_screen.left / 2 + L.width / 2 ≤ fbx ∧
          fbx < L.bottom_screen.right / 2 + L.width / 2))
  else if mode = StereoRenderOption.CardboardVR then
    decide (L.bottom_screen.top ≤ fby ∧ fby < L.bottom_screen.bottom) &&
      (decide (L.bottom_screen.left ≤ fbx ∧ fbx < L.bottom_screen.right) ||
        decide (L.cardboard.bottom_screen_right_eye + L.width / 2 ≤ fbx ∧
          fbx < L.cardboard.bottom_screen_right_eye + L.bottom_screen.GetWidth +
            L.width / 2))
  else
    decide (L.bottom_screen.top ≤ fby ∧ fby < L.bottom_screen.bottom ∧
      L.bottom_screen.left ≤ fbx ∧ fbx < L.bottom_screen.right)

/-- The stereo horizontal-offset correction shared by `TouchPressed` and
`ClipToTouchScreen` (emu_window.cpp lines 108-114 and 141-147; the two
functions duplicate this code verbatim). -/
def shiftStereo (mode : StereoRenderOption) (L : FramebufferLayout) (x : ℕ) : ℕ :=
  if L.width / 2 ≤ x then
    if mode = StereoRenderOption.SideBySide then x - L.width / 2
    else if mode = StereoRenderOption.CardboardVR then
      x - (L.width / 2 - L.cardboard.user_x_shift * 2)
    else x
  else x

/-- `EmuWindow::ClipToTouchScreen` (emu_window.cpp). -/
def ClipToTouchScreen (mode : StereoRenderOption) (L : FramebufferLayout)
    (new_x new_y : ℕ) : ℕ × ℕ :=
  let x1 := shiftStereo mode L new_x
  let x2 :=
    if mode = StereoRenderOption.SideBySide then
      min (max x1 (L.bottom_screen.left / 2)) (L.bottom_screen.right / 2 - 1)
    else
      min (max x1 L.bottom_screen.left) (L.bottom_screen.right - 1)
  let y2 := min (max new_y L.bottom_screen.top) (L.bottom_screen.bottom - 1)
  (x2, y2)

/-- `EmuWindow::TouchPressed` (emu_window.cpp): classify the pixel, apply the
stereo offset, store normalized coordinates (with the swap-and-mirror rule
when the layout is not rotated) and set the pressed flag. -/
def TouchPressed (mode : StereoRenderOption) (L : FramebufferLayout) (fbx fby : ℕ)
    (s : EmuWindowState) : EmuWindowState × TouchResult :=
  match IsWithinTopScreen L fbx fby with
  | some (nx, ny) =>
    ({ s with cam := { grabbed := true, lastX := nx, lastY := ny, tx := nx, ty := ny } },
      TouchResult.grabbedTop)
  | none =>
    if IsWithinTouchscreen mode L fbx fby = false then (s, TouchResult.rejected)
    else
      let fx := shiftStereo mode L fbx
      let nx0 : ℚ :=
        if mode = StereoRenderOption.SideBySide then
          ((fx - L.bottom_screen.left / 2 : ℕ) : ℚ) /
            ((L.bottom_screen.right / 2 - L.bottom_screen.left / 2 : ℕ) : ℚ)
        else
          ((fx - L.bottom_screen.left : ℕ) : ℚ) /
            ((L.bottom_screen.right - L.bottom_screen.left : ℕ) : ℚ)
      let ny0 : ℚ :=
        ((fby - L.bottom_screen.top : ℕ) : ℚ) /
          ((L.bottom_screen.bottom - L.bottom_screen.top : ℕ) : ℚ)
      let nx1 := if L.is_rotated = false then 1 - ny0 else nx0
      let ny1 := if L.is_rotated = false then nx0 else ny0
      ({ s with touch := { touch_pressed := true, touch_x := nx1, touch_y := ny1 } },
        TouchResult.accepted)

/-- `EmuWindow::TouchReleased` (emu_window.cpp): a release while grabbed only
clears the grabbed flag; otherwise it zeroes the touch record. -/
def TouchReleased (s : EmuWindowState) : EmuWindowState :=
  if s.cam.grabbed then { s with cam := { s.cam with grabbed := false } }
  else { s with touch := { touch_pressed := false, touch_x := 0, touch_y := 0 } }

/-- `EmuWindow::TouchMoved` (emu_window.cpp): while grabbed, refresh `tx`/`ty`
from the top-screen hit test (no write on a miss); then, if a touch is
pressed, forward the pixel (clipped if it left the touch region) to
`TouchPressed`. -/
def TouchMoved (mode : StereoRenderOption) (L : FramebufferLayout) (fbx fby : ℕ)
    (s : EmuWindowState) : EmuWindowState :=
  let s1 :=
    if s.cam.grabbed then
      match IsWithinTopScreen L fbx fby with
      | some (nx, ny) => { s with cam := { s.cam with tx := nx, ty := ny } }
      | none => s
    else s
  if s1.touch.touch_pressed = false then s1
  else
    let p :=
      if IsWithinTouchscreen mode L fbx fby = false then ClipToTouchScreen mode L fbx fby
      else (fbx, fby)
    (TouchPressed mode L p.1 p.2 s1).1

/-- The eight lazily-created keyboard button devices of `UpdateCameraHack`,
modelled as the booleans their `GetStatus()` polls return this tick. -/
structure Buttons where
  keyW : Bool
  keyA : Bool
  keyS : Bool
  keyD : Bool
  isShiftPressed : Bool
  keyB : Bool
  keyQ : Bool
  keyE : Bool
deriving DecidableEq

/-- `clamp` (emu_window.cpp): `min(max(v, lo), hi)`. -/
def clamp (v lo hi : ℚ) : ℚ := min (max v lo) hi

/-- `clampRange` (emu_window.cpp): clamp into `[-r, r]`. -/
def clampRange (v r : ℚ) : ℚ := clamp v (-r) r

/-- `isZero` (emu_window.cpp) applied to a 3-vector. -/
def isZero3 (v : Vec3) : Bool := decide (v.x = 0 ∧ v.y = 0 ∧ v.z = 0)

/-- The per-axis drag branch of the velocity integrator: multiply by the drag
factor `keyMoveDrag = 0.8` and snap to exactly zero below
`keyMoveLowSpeedCap = 0.01`. -/
def decayStep (v : ℚ) : ℚ :=
  let w := v * (8 / 10)
  if |w| < 1 / 100 then 0 else w

/-- One axis of the velocity integrator of `UpdateCameraHack`: the first held
button accelerates negatively, the second positively (clamped into
`[-cap, cap]`); with neither held the velocity decays.  The source repeats
this pattern verbatim for the W/S, A/D and Q/E axes. -/
def axisStep (negHeld posHeld : Bool) (vel cap : ℚ) (v : ℚ) : ℚ :=
  if negHeld then clampRange (v - vel) cap
  else if posHeld then clampRange (v + vel) cap
  else decayStep v

/-- `Common::Vec3::Normalize` (declared outside src/, modelled from the spec's
matrix-library conventions): divide by the Euclidean length, abstracted
through `sqrtQ`.  The zero-length case (division by zero, NaN in C) is not
reached by any theorem below. -/
def vec3_normalize (sqrtQ : ℚ → ℚ) (v : Vec3) : Vec3 :=
  let len := sqrtQ (v.x * v.x + v.y * v.y + v.z * v.z)
  ⟨v.x / len, v.y / len, v.z / len⟩

/-- `VideoCore::RenderHacksInput` (declared outside src/, modelled from the
spec): the per-frame render-hacks struct `{view_matrix, disable_fog}`. -/
structure RenderHacksInput where
  view_matrix : Mat4
  disable_fog : Bool
deriving DecidableEq

/-- `EmuWindow::UpdateCameraHack` (emu_window.cpp).  Returns the new window
state together with the `RenderHacksInput` that the source hands to
`VideoCore::g_renderer->SetRenderHacks` — the source makes that call
unconditionally on every tick, with no early return, so the second component
is always delivered.  `garbage` models the default-constructed contents of
`input.view_matrix`, which `mat4_inverse` leaves unwritten when the
determinant is zero.  Notes kept from the source: `finalMovement` is computed
(world-up projection of the vertical velocity) but never passed to
`mat4_translate`, which receives `keyMovement` instead; the `isZero` test on
the two-element `mouseMovement` array reads one double past its end in C and
is modelled as the two-component test. -/
def updateCameraHack (sine cosine sqrtQ : ℚ → ℚ) (btn : Buttons)
    (fog_disabled : Bool) (garbage : Mat4) (s : EmuWindowState) :
    EmuWindowState × RenderHacksInput :=
  let mouseDelta0 := s.cam.tx - s.cam.lastX
  let mouseDelta1 := s.cam.ty - s.cam.lastY
  let cam1 := { s.cam with lastX := s.cam.tx, lastY := s.cam.ty }
  let keyMoveSpeed : ℚ := 10
  let keyMoveShiftMult : ℚ := 5
  let keyMoveVelocityMult : ℚ := 1 / 5
  let keyMoveMult : ℚ := if btn.isShiftPressed then keyMoveShiftMult else 1
  let keyMoveSpeedCap := keyMoveSpeed * keyMoveMult
  let keyMoveVelocity := keyMoveSpeedCap * keyMoveVelocityMult
  let km := s.fps.keyMovement
  let km' : Vec3 :=
    { x := axisStep btn.keyA btn.keyD keyMoveVelocity keyMoveSpeedCap km.x
      y := axisStep btn.keyQ btn.keyE keyMoveVelocity keyMoveSpeedCap km.y
      z := axisStep btn.keyW btn.keyS keyMoveVelocity keyMoveSpeedCap km.z }
  let wm0 := if btn.keyB then mat4_identity else s.fps.worldMatrix
  let cameraUp : Vec3 := ⟨wm0.m1, wm0.m5, wm0.m9⟩
  let finalMovement : Vec3 :=
    ⟨km'.x + cameraUp.x * km'.y, cameraUp.y * km'.y, km'.z + cameraUp.z * km'.y⟩
  let wm1 := if isZero3 km' = false then mat4_translate wm0 km' else wm0
  let mouseMoveLowSpeedCap : ℚ := 1 / 10000
  let mm0 := s.fps.mouseMovement.1 + mouseDelta0 / (-500)
  let mm1 := s.fps.mouseMovement.2 + mouseDelta1 / (-500)
  let wm2 :=
    if (decide (mm0 = 0) && decide (mm1 = 0)) = false then
      let tmp := vec3_normalize sqrtQ cameraUp
      let wmA := (mat4_rotate sine cosine sqrtQ wm1 mm0 tmp).getD wm1
      (mat4_rotate sine cosine sqrtQ wmA mm1 ⟨1, 0, 0⟩).getD wmA
    else wm1
  let mouseLookDrag : ℚ := 0
  let mm0d := mm0 * mouseLookDrag
  let mm1d := mm1 * mouseLookDrag
  let mm0' := if |mm0d| < mouseMoveLowSpeedCap then 0 else mm0d
  let mm1' := if |mm1d| < mouseMoveLowSpeedCap then 0 else mm1d
  let _ := finalMovement
  ({ s with
      cam := cam1
      fps := { worldMatrix := wm2, keyMovement := km', mouseMovement := (mm0', mm1') } },
    { view_matrix := (mat4_inverse wm2).getD garbage, disable_fog := fog_disabled })

/-!
Theorems.
-/

set_option maxHeartbeats 1000000 in
/-- Claim C8: `mat4_inverse` applied to the identity returns the identity,
and for every matrix on which `mat4_inverse` succeeds (non-zero determinant)
the result is an exact left inverse: `mat4_multiply(inverse(M), M)` is the
identity over exact arithmetic. -/
theorem mat4_inverse_left_inverse :
    mat4_inverse mat4_identity = some mat4_identity ∧
      ∀ M Minv : Mat4, mat4_inverse M = some Minv →
        mat4_multiply Minv M = mat4_identity := by
  constructor
  · simp only [mat4_identity, mat4_inverse, det4, invDet4, b00, b01, b02, b03, b04, b05,
      b06, b07, b08, b09, b10, b11]
    norm_num
  · intro M Minv h
    unfold mat4_inverse at h
    by_cases hd : det4 M = 0
    · simp [hd] at h
    · simp only [hd, if_false] at h
      injection h with h
      subst h
      have key : det4 M * invDet4 M = 1 := by
        rw [invDet4, mul_one_div, div_self hd]
      simp only [det4, b00, b01, b02, b03, b04, b05, b06, b07, b08, b09, b10, b11] at key
      apply Mat4.ext <;>
        simp only [mat4_multiply, mat4_identity, b00, b01, b02, b03, b04, b05, b06, b07,
          b08, b09, b10, b11] <;>
        first
          | ring1
          | linear_combination key

/-- Witness for C8 at the translation matrix by `(3, 4, 5)`: its inverse is
computed successfully and multiplies back to the identity. -/
theorem mat4_inverse_left_inverse_w :
    mat4_inverse ⟨1, 0, 0, 0, 0, 1, 0, 0, 0, 0, 1, 0, 3, 4, 5, 1⟩ =
        some ⟨1, 0, 0, 0, 0, 1, 0, 0, 0, 0, 1, 0, -3, -4, -5, 1⟩ ∧
      mat4_multiply ⟨1, 0, 0, 0, 0, 1, 0, 0, 0, 0, 1, 0, -3, -4, -5, 1⟩
          ⟨1, 0, 0, 0, 0, 1, 0, 0, 0, 0, 1, 0, 3, 4, 5, 1⟩ =
        mat4_identity := by
  have h : mat4_inverse ⟨1, 0, 0, 0, 0, 1, 0, 0, 0, 0, 1, 0, 3, 4, 5, 1⟩ =
      some ⟨1, 0, 0, 0, 0, 1, 0, 0, 0, 0, 1, 0, -3, -4, -5, 1⟩ := by
    simp only [mat4_inverse, det4, invDet4, b00, b01, b02, b03, b04, b05, b06, b07, b08,
      b09, b10, b11]
    norm_num
  exact ⟨h, mat4_inverse_left_inverse.2 _ _ h⟩

/-- A concrete all-zero window state used by witnesses. -/
def stateZero : EmuWindowState :=
  ⟨⟨false, 0, 0⟩, ⟨false, 0, 0, 0, 0⟩, ⟨mat4_identity, ⟨0, 0, 0⟩, (0, 0)⟩⟩

/-- Claim C9: a `TouchPressed` call whose pixel hits the top screen sets the
camera grab state (`grabbed`, `tx`/`ty`, `lastX`/`lastY` all from the hit
coordinates) and leaves every field of `TouchState` unchanged; and a
`TouchReleased` call made while `grabbed` is true clears only the grabbed
flag and leaves every field of `TouchState` unchanged. -/
theorem touch_grab_short_circuit (mode : StereoRenderOption) (L : FramebufferLayout)
    (fbx fby : ℕ) (nx ny : ℚ) (s t : EmuWindowState) :
    (IsWithinTopScreen L fbx fby = some (nx, ny) →
        TouchPressed mode L fbx fby s =
          ({ s with
              cam := { grabbed := true, lastX := nx, lastY := ny, tx := nx, ty := ny } },
            TouchResult.grabbedTop)) ∧
      (t.cam.grabbed = true →
        TouchReleased t = { t with cam := { t.cam with grabbed := false } }) := by
  constructor
  · intro h
    simp [TouchPressed, h]
  · intro h
    simp [TouchReleased, h]

/-- Witness for C9: pixel `(3, 4)` hits a top screen spanning
`(0, 0)`-`(10, 10)`, grabbing the camera without touching the touch record;
releasing the grabbed state clears only the flag. -/
theorem touch_grab_short_circuit_w :
    IsWithinTopScreen ⟨⟨0, 0, 10, 10⟩, ⟨0, 20, 10, 30⟩, 40, true, ⟨0, 0⟩⟩ 3 4 =
        some (3, 4) ∧
      TouchPressed StereoRenderOption.Off
          ⟨⟨0, 0, 10, 10⟩, ⟨0, 20, 10, 30⟩, 40, true, ⟨0, 0⟩⟩ 3 4 stateZero =
        ({ stateZero with
            cam := { grabbed := true, lastX := 3, lastY := 4, tx := 3, ty := 4 } },
          TouchResult.grabbedTop) ∧
      ({ stateZero with
          cam := { grabbed := true, lastX := 3, lastY := 4, tx := 3, ty := 4 } } :
            EmuWindowState).cam.grabbed = true ∧
      TouchReleased
          { stateZero with
            cam := { grabbed := true, lastX := 3, lastY := 4, tx := 3, ty := 4 } } =
        { stateZero with
          cam := { grabbed := false, lastX := 3, lastY := 4, tx := 3, ty := 4 } } := by
  have h : IsWithinTopScreen ⟨⟨0, 0, 10, 10⟩, ⟨0, 20, 10, 30⟩, 40, true, ⟨0, 0⟩⟩ 3 4 =
      some (3, 4) := by
    norm_num [IsWithinTopScreen]
  exact ⟨h,
    (touch_grab_short_circuit StereoRenderOption.Off
      ⟨⟨0, 0, 10, 10⟩, ⟨0, 20, 10, 30⟩, 40, true, ⟨0, 0⟩⟩ 3 4 3 4 stateZero
      stateZero).1 h,
    rfl,
    (touch_grab_short_circuit StereoRenderOption.Off
      ⟨⟨0, 0, 10, 10⟩, ⟨0, 20, 10, 30⟩, 40, true, ⟨0, 0⟩⟩ 3 4 3 4 stateZero
      { stateZero with
        cam := { grabbed := true, lastX := 3, lastY := 4, tx := 3, ty := 4 } }).2 rfl⟩

/-- Claim C4: for every layout with `is_rotated = false` and every accepted
touch pixel, the stored normalized coordinates satisfy `nx = 1 - ny_raw` and
`ny = nx_raw`, where `(nx_raw, ny_raw)` is what the same computation stores
for the rotated variant of the layout (the un-rotated computation before the
swap-and-mirror step). -/
theorem touch_unrotated_swap_mirror (mode : StereoRenderOption)
    (L : FramebufferLayout) (fbx fby : ℕ) (s : EmuWindowState) :
    L.is_rotated = false →
    IsWithinTopScreen L fbx fby = none →
    IsWithinTouchscreen mode L fbx fby = true →
    (TouchPressed mode L fbx fby s).2 = TouchResult.accepted ∧
      (TouchPressed mode { L with is_rotated := true } fbx fby s).2 =
        TouchResult.accepted ∧
      (TouchPressed mode L fbx fby s).1.touch.touch_x =
        1 - (TouchPressed mode { L with is_rotated := true } fbx fby s).1.touch.touch_y ∧
      (TouchPressed mode L fbx fby s).1.touch.touch_y =
        (TouchPressed mode { L with is_rotated := true } fbx fby s).1.touch.touch_x := by
  intro hrot htop hts
  have htop' : IsWithinTopScreen { L with is_rotated := true } fbx fby = none := htop
  have hts' : IsWithinTouchscreen mode { L with is_rotated := true } fbx fby = true := hts
  simp [TouchPressed, htop, htop', hts, hts', hrot, shiftStereo]

/-- Witness for C4 on a concrete non-rotated layout: pixel `(200, 300)`
stores `touch_x = 1 - 1/4`, the mirror of the rotated result
`touch_y = 1/4`. -/
theorem touch_unrotated_swap_mirror_w :
    (⟨⟨0, 0, 0, 0⟩, ⟨40, 240, 360, 480⟩, 400, false, ⟨0, 0⟩⟩ :
        FramebufferLayout).is_rotated = false ∧
      IsWithinTopScreen ⟨⟨0, 0, 0, 0⟩, ⟨40, 240, 360, 480⟩, 400, false, ⟨0, 0⟩⟩ 200 300 =
        none ∧
      IsWithinTouchscreen StereoRenderOption.Off
          ⟨⟨0, 0, 0, 0⟩, ⟨40, 240, 360, 480⟩, 400, false, ⟨0, 0⟩⟩ 200 300 = true ∧
      (TouchPressed StereoRenderOption.Off
          ⟨⟨0, 0, 0, 0⟩, ⟨40, 240, 360, 480⟩, 400, false, ⟨0, 0⟩⟩ 200 300
          stateZero).1.touch.touch_x =
        1 - (TouchPressed StereoRenderOption.Off
            ⟨⟨0, 0, 0, 0⟩, ⟨40, 240, 360, 480⟩, 400, true, ⟨0, 0⟩⟩ 200 300
            stateZero).1.touch.touch_y := by
  have h := touch_unrotated_swap_mirror StereoRenderOption.Off
    ⟨⟨0, 0, 0, 0⟩, ⟨40, 240, 360, 480⟩, 400, false, ⟨0, 0⟩⟩ 200 300 stateZero rfl
    (by norm_num [IsWithinTopScreen]) (by decide)
  exact ⟨rfl, by norm_num [IsWithinTopScreen], by decide, h.2.2.1⟩

/-- Claim C5: with stereo off, on the rotated layout with bottom screen
`{left 40, top 240, right 360, bottom 480}` and width `400`, whenever the top
screen misses the pixel `(200, 360)`, `TouchPressed` accepts the touch and
stores exactly `nx = 1/2`, `ny = 1/2` with the pressed flag set. -/
theorem touch_concrete_center (ts : Rect) (s : EmuWindowState) :
    IsWithinTopScreen ⟨ts, ⟨40, 240, 360, 480⟩, 400, true, ⟨0, 0⟩⟩ 200 360 = none →
    TouchPressed StereoRenderOption.Off
        ⟨ts, ⟨40, 240, 360, 480⟩, 400, true, ⟨0, 0⟩⟩ 200 360 s =
      ({ s with touch := { touch_pressed := true, touch_x := 1 / 2, touch_y := 1 / 2 } },
        TouchResult.accepted) := by
  intro h
  have hts : IsWithinTouchscreen StereoRenderOption.Off
      ⟨ts, ⟨40, 240, 360, 480⟩, 400, true, ⟨0, 0⟩⟩ 200 360 = true := by
    simp [IsWithinTouchscreen]
  have hsh : shiftStereo StereoRenderOption.Off
      ⟨ts, ⟨40, 240, 360, 480⟩, 400, true, ⟨0, 0⟩⟩ 200 = 200 := by
    simp [shiftStereo]
  simp [TouchPressed, h, hts, hsh]
  norm_num

/-- Witness for C5 with an empty top screen. -/
theorem touch_concrete_center_w :
    IsWithinTopScreen ⟨⟨0, 0, 0, 0⟩, ⟨40, 240, 360, 480⟩, 400, true, ⟨0, 0⟩⟩ 200 360 =
        none ∧
      TouchPressed StereoRenderOption.Off
          ⟨⟨0, 0, 0, 0⟩, ⟨40, 240, 360, 480⟩, 400, true, ⟨0, 0⟩⟩ 200 360 stateZero =
        ({ stateZero with
            touch := { touch_pressed := true, touch_x := 1 / 2, touch_y := 1 / 2 } },
          TouchResult.accepted) := by
  have h : IsWithinTopScreen ⟨⟨0, 0, 0, 0⟩, ⟨40, 240, 360, 480⟩, 400, true, ⟨0, 0⟩⟩
      200 360 = none := by
    norm_num [IsWithinTopScreen]
  exact ⟨h, touch_concrete_center ⟨0, 0, 0, 0⟩ stateZero h⟩

/-- Claim C7: under SideBySide stereo, for a layout whose bottom-screen width
does not exceed the framebuffer width and a vertically contained `y`,
`IsWithinTouchscreen` accepts exactly the pixels with
`x` in `[left/2, right/2)` or in `[left/2 + width/2, right/2 + width/2)`,
and rejects every pixel in the gap `[right/2, left/2 + width/2)`. -/
theorem sbs_touch_regions (L : FramebufferLayout) (x y : ℕ) :
    L.bottom_screen.GetWidth ≤ L.width →
    L.bottom_screen.top ≤ y → y < L.bottom_screen.bottom →
    ((IsWithinTouchscreen StereoRenderOption.SideBySide L x y = true ↔
        (L.bottom_screen.left / 2 ≤ x ∧ x < L.bottom_screen.right / 2) ∨
          (L.bottom_screen.left / 2 + L.width / 2 ≤ x ∧
            x < L.bottom_screen.right / 2 + L.width / 2)) ∧
      (L.bottom_screen.right / 2 ≤ x → x < L.bottom_screen.left / 2 + L.width / 2 →
        IsWithinTouchscreen StereoRenderOption.SideBySide L x y = false)) := by
  intro hw hy1 hy2
  constructor
  · simp [IsWithinTouchscreen, hy1, hy2]
  · intro h1 h2
    simp only [IsWithinTouchscreen, if_pos rfl]
    simp [hy1, hy2]
    omega

/-- Witness for C7 on a concrete layout: `x = 100` is characterized by the
two intervals, and `x = 200` in the gap `[180, 220)` is rejected. -/
theorem sbs_touch_regions_w :
    (⟨⟨0, 0, 0, 0⟩, ⟨40, 240, 360, 480⟩, 400, true, ⟨0, 0⟩⟩ :
        FramebufferLayout).bottom_screen.GetWidth ≤ 400 ∧
      (240 : ℕ) ≤ 360 ∧ (360 : ℕ) < 480 ∧
      (IsWithinTouchscreen StereoRenderOption.SideBySide
          ⟨⟨0, 0, 0, 0⟩, ⟨40, 240, 360, 480⟩, 400, true, ⟨0, 0⟩⟩ 100 360 = true ↔
        ((20 : ℕ) ≤ 100 ∧ (100 : ℕ) < 180) ∨
          ((220 : ℕ) ≤ 100 ∧ (100 : ℕ) < 380)) ∧
      IsWithinTouchscreen StereoRenderOption.SideBySide
          ⟨⟨0, 0, 0, 0⟩, ⟨40, 240, 360, 480⟩, 400, true, ⟨0, 0⟩⟩ 200 360 = false := by
  have h := sbs_touch_regions ⟨⟨0, 0, 0, 0⟩, ⟨40, 240, 360, 480⟩, 400, true, ⟨0, 0⟩⟩
    100 360 (by decide) (by decide) (by decide)
  have h2 := sbs_touch_regions ⟨⟨0, 0, 0, 0⟩, ⟨40, 240, 360, 480⟩, 400, true, ⟨0, 0⟩⟩
    200 360 (by decide) (by decide) (by decide)
  exact ⟨by decide, by decide, by decide, h.1, h2.2 (by decide) (by decide)⟩

/-- Counterexample to C6 as stated: on the SideBySide layout with
`bottom_screen = (0, 0)-(8, 2)` and total width `4` (bottom screen wider than
the framebuffer), pixel `(2, 0)` is accepted and lies in the left-eye region
`[0, 4)` and outside the top screen, and its right-eye pixel `(4, 0)` is also
accepted, yet the two `TouchPressed` calls store different normalized
coordinates (`touch_x = 0` versus `touch_x = 1/2`): the left-eye pixel
already sits past `width/2` and gets the stereo offset subtracted too. -/
theorem sbs_right_eye_mismatch :
    (IsWithinTouchscreen StereoRenderOption.SideBySide
        ⟨⟨0, 0, 0, 0⟩, ⟨0, 0, 8, 2⟩, 4, true, ⟨0, 0⟩⟩ 2 0 = true) ∧
      ((0 : ℕ) / 2 ≤ 2 ∧ (2 : ℕ) < 8 / 2) ∧
      IsWithinTopScreen ⟨⟨0, 0, 0, 0⟩, ⟨0, 0, 8, 2⟩, 4, true, ⟨0, 0⟩⟩ 2 0 = none ∧
      IsWithinTouchscreen StereoRenderOption.SideBySide
          ⟨⟨0, 0, 0, 0⟩, ⟨0, 0, 8, 2⟩, 4, true, ⟨0, 0⟩⟩ (2 + 4 / 2) 0 = true ∧
      (TouchPressed StereoRenderOption.SideBySide
          ⟨⟨0, 0, 0, 0⟩, ⟨0, 0, 8, 2⟩, 4, true, ⟨0, 0⟩⟩ 2 0 stateZero).1.touch.touch_x =
        0 ∧
      (TouchPressed StereoRenderOption.SideBySide
          ⟨⟨0, 0, 0, 0⟩, ⟨0, 0, 8, 2⟩, 4, true, ⟨0, 0⟩⟩ (2 + 4 / 2) 0
          stateZero).1.touch.touch_x = 1 / 2 := by
  refine ⟨by decide, by decide, by norm_num [IsWithinTopScreen], by decide, ?_, ?_⟩
  · have htop : IsWithinTopScreen ⟨⟨0, 0, 0, 0⟩, ⟨0, 0, 8, 2⟩, 4, true, ⟨0, 0⟩⟩ 2 0 =
        none := by
      norm_num [IsWithinTopScreen]
    have hts : IsWithinTouchscreen StereoRenderOption.SideBySide
        ⟨⟨0, 0, 0, 0⟩, ⟨0, 0, 8, 2⟩, 4, true, ⟨0, 0⟩⟩ 2 0 = true := by decide
    have hsh : shiftStereo StereoRenderOption.SideBySide
        ⟨⟨0, 0, 0, 0⟩, ⟨0, 0, 8, 2⟩, 4, true, ⟨0, 0⟩⟩ 2 = 0 := by decide
    simp [TouchPressed, htop, hts, hsh]
  · have htop : IsWithinTopScreen ⟨⟨0, 0, 0, 0⟩, ⟨0, 0, 8, 2⟩, 4, true, ⟨0, 0⟩⟩
        (2 + 4 / 2) 0 = none := by
      norm_num [IsWithinTopScreen]
    have hts : IsWithinTouchscreen StereoRenderOption.SideBySide
        ⟨⟨0, 0, 0, 0⟩, ⟨0, 0, 8, 2⟩, 4, true, ⟨0, 0⟩⟩ (2 + 4 / 2) 0 = true := by decide
    have hsh : shiftStereo StereoRenderOption.SideBySide
        ⟨⟨0, 0, 0, 0⟩, ⟨0, 0, 8, 2⟩, 4, true, ⟨0, 0⟩⟩ (2 + 4 / 2) = 2 := by decide
    simp [TouchPressed, htop, hts, hsh]
    norm_num

/-- Claim C6 amended: under SideBySide stereo, for every layout whose
`bottom_screen.right` does not exceed the framebuffer width, every pixel
`(x, y)` in the left-eye touch region with both `(x, y)` and the right-eye
pixel `(x + width/2, y)` outside the top screen, `TouchPressed` on the
right-eye pixel is accepted and produces exactly the same state (hence the
same stored normalized coordinates) as on the left-eye pixel. -/
theorem sbs_right_eye_same (L : FramebufferLayout) (x y : ℕ) (s : EmuWindowState) :
    L.bottom_screen.right ≤ L.width →
    L.bottom_screen.top ≤ y → y < L.bottom_screen.bottom →
    L.bottom_screen.left / 2 ≤ x → x < L.bottom_screen.right / 2 →
    IsWithinTopScreen L x y = none →
    IsWithinTopScreen L (x + L.width / 2) y = none →
    TouchPressed StereoRenderOption.SideBySide L (x + L.width / 2) y s =
        TouchPressed StereoRenderOption.SideBySide L x y s ∧
      (TouchPressed StereoRenderOption.SideBySide L x y s).2 = TouchResult.accepted := by
  intro hw hy1 hy2 hx1 hx2 htopL htopR
  have hxw : x < L.width / 2 := lt_of_lt_of_le hx2 (Nat.div_le_div_right hw)
  have htsL : IsWithinTouchscreen StereoRenderOption.SideBySide L x y = true := by
    simp [IsWithinTouchscreen, hy1, hy2]
    omega
  have htsR : IsWithinTouchscreen StereoRenderOption.SideBySide L (x + L.width / 2) y =
      true := by
    simp [IsWithinTouchscreen, hy1, hy2]
    omega
  have hshL : shiftStereo StereoRenderOption.SideBySide L x = x := by
    simp [shiftStereo]
    omega
  have hshR : shiftStereo StereoRenderOption.SideBySide L (x + L.width / 2) = x := by
    simp [shiftStereo]
  constructor
  · simp [TouchPressed, htopL, htopR, htsL, htsR, hshL, hshR]
  · simp [TouchPressed, htopL, htsL]

/-- Witness for the amended C6: left-eye pixel `(100, 360)` and right-eye
pixel `(300, 360)` produce identical accepted touches. -/
theorem sbs_right_eye_same_w :
    ((⟨⟨0, 0, 0, 0⟩, ⟨40, 240, 360, 480⟩, 400, true, ⟨0, 0⟩⟩ :
        FramebufferLayout).bottom_screen.right ≤ 400) ∧
      TouchPressed StereoRenderOption.SideBySide
          ⟨⟨0, 0, 0, 0⟩, ⟨40, 240, 360, 480⟩, 400, true, ⟨0, 0⟩⟩ (100 + 200) 360
          stateZero =
        TouchPressed StereoRenderOption.SideBySide
          ⟨⟨0, 0, 0, 0⟩, ⟨40, 240, 360, 480⟩, 400, true, ⟨0, 0⟩⟩ 100 360 stateZero ∧
      (TouchPressed StereoRenderOption.SideBySide
          ⟨⟨0, 0, 0, 0⟩, ⟨40, 240, 360, 480⟩, 400, true, ⟨0, 0⟩⟩ 100 360 stateZero).2 =
        TouchResult.accepted := by
  have h := sbs_right_eye_same ⟨⟨0, 0, 0, 0⟩, ⟨40, 240, 360, 480⟩, 400, true, ⟨0, 0⟩⟩
    100 360 stateZero (by decide) (by decide) (by decide) (by decide) (by decide)
    (by norm_num [IsWithinTopScreen]) (by norm_num [IsWithinTopScreen])
  exact ⟨by decide, h.1, h.2⟩

/-- Counterexample to C10 as stated: on a (pathological) layout whose top and
bottom screen rectangles coincide at `(0, 0)`-`(100, 100)`, with the camera
grabbed at `tx = ty = 5` and a bottom touch simultaneously pressed, moving to
pixel `(200, 50)` — outside the top screen — clips the forwarded pixel to
`(99, 50)`, which lies inside the top screen, so the nested `TouchPressed`
overwrites `tx` with `99` instead of keeping the previous value `5`. -/
theorem touchMoved_clipped_into_top_screen :
    IsWithinTopScreen ⟨⟨0, 0, 100, 100⟩, ⟨0, 0, 100, 100⟩, 400, true, ⟨0, 0⟩⟩ 200 50 =
        none ∧
      (⟨⟨true, 0, 0⟩, ⟨true, 5, 5, 5, 5⟩, ⟨mat4_identity, ⟨0, 0, 0⟩, (0, 0)⟩⟩ :
          EmuWindowState).cam.grabbed = true ∧
      (TouchMoved StereoRenderOption.Off
          ⟨⟨0, 0, 100, 100⟩, ⟨0, 0, 100, 100⟩, 400, true, ⟨0, 0⟩⟩ 200 50
          ⟨⟨true, 0, 0⟩, ⟨true, 5, 5, 5, 5⟩,
            ⟨mat4_identity, ⟨0, 0, 0⟩, (0, 0)⟩⟩).cam.tx = 99 ∧
      ¬(TouchMoved StereoRenderOption.Off
          ⟨⟨0, 0, 100, 100⟩, ⟨0, 0, 100, 100⟩, 400, true, ⟨0, 0⟩⟩ 200 50
          ⟨⟨true, 0, 0⟩, ⟨true, 5, 5, 5, 5⟩,
            ⟨mat4_identity, ⟨0, 0, 0⟩, (0, 0)⟩⟩).cam.tx =
        (⟨⟨true, 0, 0⟩, ⟨true, 5, 5, 5, 5⟩, ⟨mat4_identity, ⟨0, 0, 0⟩, (0, 0)⟩⟩ :
            EmuWindowState).cam.ty := by
  have htop : IsWithinTopScreen ⟨⟨0, 0, 100, 100⟩, ⟨0, 0, 100, 100⟩, 400, true, ⟨0, 0⟩⟩
      200 50 = none := by
    norm_num [IsWithinTopScreen]
  have hts : IsWithinTouchscreen StereoRenderOption.Off
      ⟨⟨0, 0, 100, 100⟩, ⟨0, 0, 100, 100⟩, 400, true, ⟨0, 0⟩⟩ 200 50 = false := by decide
  have hclip : ClipToTouchScreen StereoRenderOption.Off
      ⟨⟨0, 0, 100, 100⟩, ⟨0, 0, 100, 100⟩, 400, true, ⟨0, 0⟩⟩ 200 50 = (99, 50) := by
    decide
  have htop99 : IsWithinTopScreen ⟨⟨0, 0, 100, 100⟩, ⟨0, 0, 100, 100⟩, 400, true, ⟨0, 0⟩⟩
      99 50 = some (99, 50) := by
    norm_num [IsWithinTopScreen]
  have h : (TouchMoved StereoRenderOption.Off
      ⟨⟨0, 0, 100, 100⟩, ⟨0, 0, 100, 100⟩, 400, true, ⟨0, 0⟩⟩ 200 50
      ⟨⟨true, 0, 0⟩, ⟨true, 5, 5, 5, 5⟩,
        ⟨mat4_identity, ⟨0, 0, 0⟩, (0, 0)⟩⟩).cam.tx = 99 := by
    simp [TouchMoved, htop, hts, hclip, TouchPressed, htop99]
  refine ⟨htop, rfl, h, ?_⟩
  rw [h]
  norm_num

/-- TouchPressed leaves the camera grab state untouched whenever the pixel
misses the top screen (both the rejected and the accepted path). -/
lemma TouchPressed_cam_of_topmiss (mode : StereoRenderOption) (L : FramebufferLayout)
    (fbx fby : ℕ) (s : EmuWindowState) (h : IsWithinTopScreen L fbx fby = none) :
    (TouchPressed mode L fbx fby s).1.cam = s.cam := by
  unfold TouchPressed
  rw [h]
  rcases hts : IsWithinTouchscreen mode L fbx fby with _ | _ <;> simp [hts]

/-- Claim C10 amended: for every `TouchMoved` call made while grabbed, if the
new pixel lies outside the top screen and, in case a bottom-screen touch is
simultaneously pressed, the clipped pixel also lies outside the top screen,
then `tx`/`ty` keep their previous values. -/
theorem touchMoved_keeps_tx_ty (mode : StereoRenderOption) (L : FramebufferLayout)
    (fbx fby : ℕ) (s : EmuWindowState) :
    s.cam.grabbed = true →
    IsWithinTopScreen L fbx fby = none →
    (s.touch.touch_pressed = false ∨
      IsWithinTopScreen L (ClipToTouchScreen mode L fbx fby).1
        (ClipToTouchScreen mode L fbx fby).2 = none) →
    (TouchMoved mode L fbx fby s).cam.tx = s.cam.tx ∧
      (TouchMoved mode L fbx fby s).cam.ty = s.cam.ty := by
  intro hg htop h3
  unfold TouchMoved
  rw [hg]
  simp only [htop]
  rcases hp : s.touch.touch_pressed with _ | _
  · simp [hp]
  · rcases hts : IsWithinTouchscreen mode L fbx fby with _ | _
    · have hc : IsWithinTopScreen L (ClipToTouchScreen mode L fbx fby).1
          (ClipToTouchScreen mode L fbx fby).2 = none := by
        rcases h3 with h3 | h3
        · rw [hp] at h3
          exact absurd h3 (by simp)
        · exact h3
      simp [hp, hts, TouchPressed_cam_of_topmiss mode L _ _ s hc]
    · simp [hp, hts, TouchPressed_cam_of_topmiss mode L fbx fby s htop]

/-- Witness for the amended C10: with disjoint screens, a grabbed move to
`(150, 50)` (outside both regions, clipped to `(99, 120)`) preserves
`tx = ty = 5`. -/
theorem touchMoved_keeps_tx_ty_w :
    (⟨⟨true, 0, 0⟩, ⟨true, 5, 5, 5, 5⟩, ⟨mat4_identity, ⟨0, 0, 0⟩, (0, 0)⟩⟩ :
        EmuWindowState).cam.grabbed = true ∧
      IsWithinTopScreen ⟨⟨0, 0, 100, 100⟩, ⟨0, 120, 100, 220⟩, 400, true, ⟨0, 0⟩⟩
        150 50 = none ∧
      (TouchMoved StereoRenderOption.Off
          ⟨⟨0, 0, 100, 100⟩, ⟨0, 120, 100, 220⟩, 400, true, ⟨0, 0⟩⟩ 150 50
          ⟨⟨true, 0, 0⟩, ⟨true, 5, 5, 5, 5⟩,
            ⟨mat4_identity, ⟨0, 0, 0⟩, (0, 0)⟩⟩).cam.tx = 5 ∧
      (TouchMoved StereoRenderOption.Off
          ⟨⟨0, 0, 100, 100⟩, ⟨0, 120, 100, 220⟩, 400, true, ⟨0, 0⟩⟩ 150 50
          ⟨⟨true, 0, 0⟩, ⟨true, 5, 5, 5, 5⟩,
            ⟨mat4_identity, ⟨0, 0, 0⟩, (0, 0)⟩⟩).cam.ty = 5 := by
  have h := touchMoved_keeps_tx_ty StereoRenderOption.Off
    ⟨⟨0, 0, 100, 100⟩, ⟨0, 120, 100, 220⟩, 400, true, ⟨0, 0⟩⟩ 150 50
    ⟨⟨true, 0, 0⟩, ⟨true, 5, 5, 5, 5⟩, ⟨mat4_identity, ⟨0, 0, 0⟩, (0, 0)⟩⟩
    rfl (by norm_num [IsWithinTopScreen])
    (Or.inr (by norm_num [IsWithinTopScreen, ClipToTouchScreen, shiftStereo]))
  exact ⟨rfl, by norm_num [IsWithinTopScreen], h.1, h.2⟩

/-- The signed velocity cap `keyMoveSpeed * keyMoveMult` of `UpdateCameraHack`
(`10`, or `10 * 5` with the shift boost held). -/
def keyMoveSpeedCap (boost : Bool) : ℚ := 10 * (if boost then 5 else 1)

/-- The per-tick acceleration step `keyMoveSpeedCap * keyMoveVelocityMult`
(`keyMoveVelocityMult = 1/5`) of `UpdateCameraHack`. -/
def keyMoveVelocity (boost : Bool) : ℚ := keyMoveSpeedCap boost * (1 / 5)

/-- Acceleration half of the integrator: holding the positive button from
rest, after `n` ticks the velocity is exactly `min (n * vel) cap`. -/
lemma axis_iterate_pos (vel cap : ℚ) (h0 : 0 < vel) (hvc : vel ≤ cap) :
    ∀ n : ℕ, (fun v => axisStep false true vel cap v)^[n] 0 = min ((n : ℚ) * vel) cap := by
  have hcap : (0 : ℚ) < cap := lt_of_lt_of_le h0 hvc
  intro n
  induction n with
  | zero =>
    simp only [Function.iterate_zero, id_eq, Nat.cast_zero, zero_mul]
    rw [min_eq_left hcap.le]
  | succ n ih =>
    rw [Function.iterate_succ_apply', ih]
    have hmin0 : (0 : ℚ) ≤ min ((n : ℚ) * vel) cap := le_min (by positivity) hcap.le
    simp only [axisStep, Bool.false_eq_true, if_false, if_true, clampRange, clamp]
    rw [max_eq_left (by linarith)]
    push_cast
    rw [add_mul, one_mul]
    rcases le_or_lt ((n : ℚ) * vel) cap with h | h
    · rw [min_eq_left h]
    · rw [min_eq_right h.le, min_eq_right (by linarith), min_eq_right (by linarith)]

/-- Acceleration half for the negative button: symmetric, toward `-cap`. -/
lemma axis_iterate_neg (vel cap : ℚ) (h0 : 0 < vel) (hvc : vel ≤ cap) :
    ∀ n : ℕ, (fun v => axisStep true false vel cap v)^[n] 0 =
      -min ((n : ℚ) * vel) cap := by
  have hcap : (0 : ℚ) < cap := lt_of_lt_of_le h0 hvc
  intro n
  induction n with
  | zero =>
    simp only [Function.iterate_zero, id_eq, Nat.cast_zero, zero_mul]
    rw [min_eq_left hcap.le, neg_zero]
  | succ n ih =>
    rw [Function.iterate_succ_apply', ih]
    have hmin0 : (0 : ℚ) ≤ min ((n : ℚ) * vel) cap := le_min (by positivity) hcap.le
    have hminc : min ((n : ℚ) * vel) cap ≤ cap := min_le_right _ _
    simp only [axisStep, if_true, clampRange, clamp]
    rw [min_eq_left (max_le (by linarith) (by linarith))]
    push_cast
    rw [add_mul, one_mul]
    rcases le_or_lt ((n : ℚ) * vel) cap with h | h
    · rw [min_eq_left h]
      rcases le_or_lt ((n : ℚ) * vel + vel) cap with h2 | h2
      · rw [max_eq_left (by linarith), min_eq_left h2]
        ring
      · rw [max_eq_right (by linarith), min_eq_right h2.le]
    · rw [min_eq_right h.le, max_eq_right (by linarith), min_eq_right (by linarith)]

/-- Claim C3: per movement axis, starting from velocity 0 with the boost
modifier constant: holding the single directional button makes each tick add
the fixed step `keyMoveSpeedCap / 5` and clamp into `[-cap, cap]`, so the
magnitude equals `min (n * step) cap` after `n` ticks — monotonically rising,
reaching exactly the cap (at tick 5) and never exceeding it, in either button
direction; with neither button held, a tick multiplies the velocity by `0.8`
and snaps it to exactly `0` as soon as the magnitude falls below `0.01`. -/
theorem velocity_integrator_cap_and_decay (boost : Bool) :
    (∀ n : ℕ,
        (fun v => axisStep false true (keyMoveVelocity boost) (keyMoveSpeedCap boost)
            v)^[n] 0 =
          min ((n : ℚ) * keyMoveVelocity boost) (keyMoveSpeedCap boost)) ∧
      (∀ n : ℕ,
        |(fun v => axisStep false true (keyMoveVelocity boost) (keyMoveSpeedCap boost)
            v)^[n] 0| ≤ keyMoveSpeedCap boost) ∧
      (∀ n : ℕ,
        |(fun v => axisStep false true (keyMoveVelocity boost) (keyMoveSpeedCap boost)
            v)^[n] 0| ≤
          |(fun v => axisStep false true (keyMoveVelocity boost) (keyMoveSpeedCap boost)
              v)^[n + 1] 0|) ∧
      (fun v => axisStep false true (keyMoveVelocity boost) (keyMoveSpeedCap boost)
          v)^[5] 0 = keyMoveSpeedCap boost ∧
      (∀ n : ℕ,
        (fun v => axisStep true false (keyMoveVelocity boost) (keyMoveSpeedCap boost)
            v)^[n] 0 =
          -min ((n : ℚ) * keyMoveVelocity boost) (keyMoveSpeedCap boost)) ∧
      (∀ v : ℚ,
        axisStep false false (keyMoveVelocity boost) (keyMoveSpeedCap boost) v =
          if |v * (8 / 10)| < 1 / 100 then 0 else v * (8 / 10)) := by
  have h0 : 0 < keyMoveVelocity boost := by
    rcases boost with _ | _ <;> norm_num [keyMoveVelocity, keyMoveSpeedCap]
  have hvc : keyMoveVelocity boost ≤ keyMoveSpeedCap boost := by
    rcases boost with _ | _ <;> norm_num [keyMoveVelocity, keyMoveSpeedCap]
  have hcap : (0 : ℚ) < keyMoveSpeedCap boost := lt_of_lt_of_le h0 hvc
  have hiter := axis_iterate_pos _ _ h0 hvc
  refine ⟨hiter, ?_, ?_, ?_, axis_iterate_neg _ _ h0 hvc, ?_⟩
  · intro n
    rw [hiter n, abs_of_nonneg (le_min (by positivity) hcap.le)]
    exact min_le_right _ _
  · intro n
    rw [hiter n, hiter (n + 1), abs_of_nonneg (le_min (by positivity) hcap.le),
      abs_of_nonneg (le_min (by positivity) hcap.le)]
    refine min_le_min (mul_le_mul_of_nonneg_right ?_ h0.le) le_rfl
    push_cast
    linarith
  · rw [hiter 5]
    have h5 : ((5 : ℕ) : ℚ) * keyMoveVelocity boost = keyMoveSpeedCap boost := by
      rw [keyMoveVelocity]
      push_cast
      ring
    rw [h5, min_self]
  · intro v
    simp [axisStep, decayStep]

/-- No camera-hack button held this tick. -/
def buttonsNone : Buttons := ⟨false, false, false, false, false, false, false, false⟩

/-- The all-zero matrix: determinant exactly zero. -/
def zeroMat : Mat4 := ⟨0, 0, 0, 0, 0, 0, 0, 0, 0, 0, 0, 0, 0, 0, 0, 0⟩

/-- A recognizable stand-in for the indeterminate default contents of
`RenderHacksInput::view_matrix`. -/
def garbageMat : Mat4 := ⟨7, 7, 7, 7, 7, 7, 7, 7, 7, 7, 7, 7, 7, 7, 7, 7⟩

/-- A quiescent window state whose world matrix is singular. -/
def stateSingular : EmuWindowState :=
  ⟨⟨false, 0, 0⟩, ⟨false, 0, 0, 0, 0⟩, ⟨zeroMat, ⟨0, 0, 0⟩, (0, 0)⟩⟩

/-- Claim C1 evidence (the code violates the claim): starting from a
quiescent state whose `worldMatrix` is the all-zero matrix, the determinant
is exactly zero and `mat4_inverse` fails (`none`), yet `UpdateCameraHack`
still delivers a `RenderHacksInput` to the renderer — carrying the never
written default contents of `view_matrix` — because the source calls
`SetRenderHacks` unconditionally without checking the `mat4_inverse` return
value. -/
theorem updateCameraHack_publishes_despite_singular :
    det4 zeroMat = 0 ∧
      mat4_inverse zeroMat = none ∧
      (updateCameraHack id id id buttonsNone false garbageMat
          stateSingular).1.fps.worldMatrix = zeroMat ∧
      (updateCameraHack id id id buttonsNone false garbageMat stateSingular).2 =
        { view_matrix := garbageMat, disable_fog := false } := by
  have hdet : det4 zeroMat = 0 := by
    norm_num [det4, b00, b01, b02, b03, b04, b05, b06, b07, b08, b09, b10, b11, zeroMat]
  have hinv : mat4_inverse zeroMat = none := by
    rw [mat4_inverse, if_pos hdet]
  have hinv' : mat4_inverse ⟨0, 0, 0, 0, 0, 0, 0, 0, 0, 0, 0, 0, 0, 0, 0, 0⟩ = none :=
    hinv
  refine ⟨hdet, hinv, ?_, ?_⟩ <;>
    · simp only [updateCameraHack, buttonsNone, stateSingular, zeroMat]
      norm_num [axisStep, decayStep, isZero3, hinv', zeroMat]

/-- The identity matrix with entry 1 set to 1: a world matrix whose derived
up axis `(m1, m5, m9) = (1, 1, 0)` differs from world up. -/
def tiltMat : Mat4 := ⟨1, 1, 0, 0, 0, 1, 0, 0, 0, 0, 1, 0, 0, 0, 0, 1⟩

/-- A quiescent state with the tilted world matrix and a pure vertical
velocity `keyMovement = (0, 1, 0)`. -/
def stateTilt : EmuWindowState :=
  ⟨⟨false, 0, 0⟩, ⟨false, 0, 0, 0, 0⟩, ⟨tiltMat, ⟨0, 1, 0⟩, (0, 0)⟩⟩

/-- Claim C2 evidence (the code violates the claim): on a tick with no
buttons held, starting from the tilted world matrix with derived up axis
`(1, 1, 0)` and vertical velocity `keyMovement = (0, 1, 0)`, the decayed
velocity is `(0, 4/5, 0)` and the source translates the world matrix by that
`keyMovement` vector itself — leaving entry 12 at `0` — whereas the claimed
world-up-projected vector `(km0 + up.x * km1, up.y * km1, km2 + up.z * km1)`
evaluates to `(4/5, 4/5, 0)` and would set entry 12 to `4/5`; the two
resulting matrices differ, so the computed `finalMovement` is dead code. -/
theorem updateCameraHack_translates_by_keyMovement :
    (updateCameraHack id id id buttonsNone false garbageMat
        stateTilt).1.fps.keyMovement = ⟨0, 4 / 5, 0⟩ ∧
      (⟨0 + tiltMat.m1 * (4 / 5), tiltMat.m5 * (4 / 5), 0 + tiltMat.m9 * (4 / 5)⟩ :
          Vec3) = ⟨4 / 5, 4 / 5, 0⟩ ∧
      (updateCameraHack id id id buttonsNone false garbageMat
          stateTilt).1.fps.worldMatrix = mat4_translate tiltMat ⟨0, 4 / 5, 0⟩ ∧
      (updateCameraHack id id id buttonsNone false garbageMat
          stateTilt).1.fps.worldMatrix.m12 = 0 ∧
      (mat4_translate tiltMat ⟨4 / 5, 4 / 5, 0⟩).m12 = 4 / 5 ∧
      ¬(updateCameraHack id id id buttonsNone false garbageMat
            stateTilt).1.fps.worldMatrix =
        mat4_translate tiltMat ⟨4 / 5, 4 / 5, 0⟩ := by
  have habs : |(4 : ℚ) / 5| = 4 / 5 := abs_of_nonneg (by norm_num)
  have hwm : (updateCameraHack id id id buttonsNone false garbageMat
      stateTilt).1.fps.worldMatrix = mat4_translate tiltMat ⟨0, 4 / 5, 0⟩ := by
    simp only [updateCameraHack, buttonsNone, stateTilt]
    norm_num [axisStep, decayStep, isZero3, tiltMat, mat4_translate, habs]
  have hkm : (updateCameraHack id id id buttonsNone false garbageMat
      stateTilt).1.fps.keyMovement = ⟨0, 4 / 5, 0⟩ := by
    simp only [updateCameraHack, buttonsNone, stateTilt]
    norm_num [axisStep, decayStep, habs]
  have h12 : (mat4_translate tiltMat (⟨0, 4 / 5, 0⟩ : Vec3)).m12 = 0 := by
    norm_num [mat4_translate, tiltMat]
  have h12' : (mat4_translate tiltMat (⟨4 / 5, 4 / 5, 0⟩ : Vec3)).m12 = 4 / 5 := by
    norm_num [mat4_translate, tiltMat]
  refine ⟨hkm, by norm_num [tiltMat], hwm, by rw [hwm]; exact h12, h12', ?_⟩
  intro h
  rw [hwm] at h
  have := congrArg Mat4.m12 h
  rw [h12, h12'] at this
  norm_num at this

end Citra
